import Mathlib

/-!
TradeX backend, event controller.

A shallow embedding of `controller/event.js`.  The handlers talk to two outside
services, the document database behind the `Shop` and `Event` models and the
Cloudinary asset store.  Both are taken as a parameter `Services σ` over an
arbitrary state `σ`; every call a handler makes is recorded, in the order it is
issued, in the `calls` of the run, and everything written with `console.log` or
`console.error` in its `logs`.
-/

namespace TradeX

/-! ## Data -/

/-- A value raised by a service call.  Only its `message` property is ever read
by the handlers; `none` stands for a raised value without a usable `message`. -/
structure Thrown where
  message : Option String
deriving DecidableEq, Repr

/-- The `{public_id, url}` entries of an event's `images`. -/
structure AssetRef where
  public_id : String
  url : String
deriving DecidableEq, Repr

/-- What `cloudinary.v2.uploader.upload` resolves to (the two properties read). -/
structure UploadResult where
  public_id : String
  secure_url : String
deriving DecidableEq, Repr

/-- What `cloudinary.v2.uploader.destroy` resolves to. -/
structure DestroyResult where
  result : String
deriving DecidableEq, Repr

/-- What `Event.deleteOne` resolves to. -/
structure DeleteResult where
  deletedCount : Nat
deriving DecidableEq, Repr

/-- A shop document. -/
structure Shop where
  _id : String
  name : String
deriving DecidableEq, Repr

/-- The `images` property of a create request body: a string, an array of
strings, or nothing at all. -/
inductive ImagesField where
  | str (image : String)
  | arr (images : List String)
  | absent
deriving DecidableEq, Repr

/-- The body of a create request.  `fields` are the properties the handler
never looks at (name, description, prices, dates, ...). -/
structure Body where
  shopId : String
  images : ImagesField
  fields : List (String × String)
deriving DecidableEq, Repr

/-- The object handed to `Event.create`: the request body with `images` and
`shop` overwritten. -/
structure ProductData where
  shopId : String
  images : List AssetRef
  shop : Shop
  fields : List (String × String)
deriving DecidableEq, Repr

/-- An event document. -/
structure Event where
  _id : String
  shopId : String
  images : List AssetRef
  shop : Shop
  createdAt : Nat
  fields : List (String × String)
deriving DecidableEq, Repr

/-- The seller the `isSeller` gate attaches to a request (`req.seller`). -/
structure Seller where
  _id : String
deriving DecidableEq, Repr

/-- A delete request that passed the seller gate. -/
structure DeleteRequest where
  id : String
  seller : Seller
deriving DecidableEq, Repr

/-- First argument of `new ErrorHandler(_, status)`: a string, a raised value
passed on whole, or `undefined`. -/
inductive ErrMessage where
  | text (s : String)
  | thrown (e : Thrown)
  | undefined
deriving DecidableEq, Repr

/-- The error object given to `next`. -/
structure ErrorHandler where
  message : ErrMessage
  statusCode : Nat
deriving DecidableEq, Repr

/-- The JSON bodies the handlers send. -/
inductive JsonBody where
  | event (success : Bool) (event : Event)
  | events (success : Bool) (events : List Event)
  | message (success : Bool) (message : String)
deriving DecidableEq, Repr

/-- How a handler ends: `res.status(s).json(b)` or `next(err)`. -/
inductive Outcome where
  | json (status : Nat) (body : JsonBody)
  | next (err : ErrorHandler)
deriving DecidableEq, Repr

/-- A call to an outside service. -/
inductive Call where
  | shopFindById (id : String)
  | upload (image : String) (folder : String)
  | eventCreate (data : ProductData)
  | eventFindById (id : String)
  | destroy (public_id : String)
  | eventDeleteOne (id : String)
  | eventFindSortCreatedAtDesc
deriving DecidableEq, Repr

/-- A line written to the console. -/
inductive LogLine where
  | productData (data : ProductData)
  | event (event : Event)
  | eventCreated
  | found (event : Option Event)
  | deletionResult (index : Nat) (result : DestroyResult)
  | deletionFailed (public_id : String)
  | eventRemoved
deriving DecidableEq, Repr

/-- The outside services, over a state `σ` of their own.  `rejectionPick` says
which of several rejected promises rejects first: the program does not
determine it. -/
structure Services (σ : Type) where
  shopFindById : String → σ → Except Thrown (Option Shop) × σ
  upload : String → String → σ → Except Thrown UploadResult × σ
  eventCreate : ProductData → σ → Except Thrown Event × σ
  eventFindById : String → σ → Except Thrown (Option Event) × σ
  destroy : String → σ → Except Thrown DestroyResult × σ
  eventDeleteOne : String → σ → Except Thrown DeleteResult × σ
  eventFindSortCreatedAtDesc : σ → Except Thrown (List Event) × σ
  rejectionPick : Nat

/-- A run in progress: the services' state, the calls issued so far and the
console output so far. -/
structure Run (σ : Type) where
  st : σ
  calls : List Call
  logs : List LogLine

/-- Record one issued call and the state it leaves. -/
def Run.step {σ : Type} (r : Run σ) (c : Call) (st : σ) : Run σ :=
  { r with st := st, calls := r.calls ++ [c] }

/-- Write one line to the console. -/
def Run.log {σ : Type} (r : Run σ) (l : LogLine) : Run σ :=
  { r with logs := r.logs ++ [l] }

/-! ## The create handler -/

/-- The `for` loop of the create handler: one `upload` per image, each awaited
before the next is issued, the `{public_id, url}` of every result pushed onto
`imagesLinks`.  A rejected upload leaves the loop at once. -/
def uploadLoop {σ : Type} (w : Services σ) :
    List String → List AssetRef → Run σ → Except Thrown (List AssetRef) × Run σ
  | [], imagesLinks, r => (.ok imagesLinks, r)
  | image :: rest, imagesLinks, r =>
    match w.upload image "products" r.st with
    | (.error e, st) => (.error e, r.step (.upload image "products") st)
    | (.ok result, st) =>
      uploadLoop w rest (imagesLinks ++ [⟨result.public_id, result.secure_url⟩])
        (r.step (.upload image "products") st)

/-- The local `images` of the create handler: a string is pushed onto an empty
array, anything else is taken as it is (`none` for a missing property). -/
def imagesOf : ImagesField → Option (List String)
  | .str image => some [image]
  | .arr images => some images
  | .absent => none

/-- The value raised by `images.length` when `images` is `undefined`. -/
def lengthOfUndefined : Thrown :=
  ⟨some "Cannot read properties of undefined (reading 'length')"⟩

/-- Handler of `POST /create-event`. -/
def createEvent {σ : Type} (w : Services σ) (body : Body) (st : σ) : Outcome × Run σ :=
  let r0 : Run σ := ⟨st, [], []⟩
  match w.shopFindById body.shopId st with
  | (.error e, st1) => (.next ⟨.thrown e, 400⟩, r0.step (.shopFindById body.shopId) st1)
  | (.ok none, st1) =>
    (.next ⟨.text "Shop Id is invalid!", 400⟩, r0.step (.shopFindById body.shopId) st1)
  | (.ok (some shop), st1) =>
    let r1 := r0.step (.shopFindById body.shopId) st1
    match imagesOf body.images with
    | none => (.next ⟨.thrown lengthOfUndefined, 400⟩, r1)
    | some images =>
      match uploadLoop w images [] r1 with
      | (.error e, r2) => (.next ⟨.thrown e, 400⟩, r2)
      | (.ok imagesLinks, r2) =>
        let productData : ProductData := ⟨body.shopId, imagesLinks, shop, body.fields⟩
        let r3 := r2.log (.productData productData)
        match w.eventCreate productData r3.st with
        | (.error e, st4) => (.next ⟨.thrown e, 400⟩, r3.step (.eventCreate productData) st4)
        | (.ok event, st4) =>
          (.json 201 (.event true event),
            ((r3.step (.eventCreate productData) st4).log (.event event)).log .eventCreated)

/-! ## The delete handler -/

/-- The `event.images.map(...)` of the delete handler: one `destroy` call per
image, issued in the order of `images`, none awaited. -/
def destroyAll {σ : Type} (w : Services σ) :
    List AssetRef → Run σ → List (Except Thrown DestroyResult) × Run σ
  | [], r => ([], r)
  | image :: rest, r =>
    match w.destroy image.public_id r.st with
    | (p, st) =>
      match destroyAll w rest (r.step (.destroy image.public_id) st) with
      | (ps, r') => (p :: ps, r')

/-- The reasons of the rejected promises of a list. -/
def rejections {α : Type} : List (Except Thrown α) → List Thrown
  | [] => []
  | .error e :: ps => e :: rejections ps
  | .ok _ :: ps => rejections ps

/-- The values of the fulfilled promises of a list. -/
def fulfilments {α : Type} : List (Except Thrown α) → List α
  | [] => []
  | .error _ :: ps => fulfilments ps
  | .ok a :: ps => a :: fulfilments ps

/-- The outcome of `Promise.all`: all values, in the order of the promises, when
every promise is fulfilled; otherwise the reason of the promise that rejects
first, which `pick` chooses among the rejected ones. -/
def promiseAll {α : Type} (pick : Nat) (ps : List (Except Thrown α)) : Except Thrown (List α) :=
  match rejections ps with
  | [] => .ok (fulfilments ps)
  | e :: es => .error ((e :: es).getD (pick % (es.length + 1)) e)

/-- The expression `error.message || "Server Error"`. -/
def messageOrServerError (e : Thrown) : String :=
  match e.message with
  | none => "Server Error"
  | some m => if m = "" then "Server Error" else m

/-- The `deletionResults.forEach(...)` of the delete handler: every result is
logged, and a result other than 'ok' is reported with the `public_id` of the
image at the same index. -/
def logDeletionResults {σ : Type} :
    List DestroyResult → List AssetRef → Nat → Run σ → Run σ
  | result :: results, image :: images, index, r =>
    let r' := r.log (.deletionResult index result)
    logDeletionResults results images (index + 1)
      (if result.result ≠ "ok" then r'.log (.deletionFailed image.public_id) else r')
  | _, _, _, r => r

/-- Handler of `DELETE /delete-shop-event/:id`, behind the `isSeller` gate. -/
def deleteShopEvent {σ : Type} (w : Services σ) (req : DeleteRequest) (st : σ) :
    Outcome × Run σ :=
  let r0 : Run σ := ⟨st, [], []⟩
  match w.eventFindById req.id st with
  | (.error e, st1) =>
    (.next ⟨.text (messageOrServerError e), 400⟩, r0.step (.eventFindById req.id) st1)
  | (.ok found, st1) =>
    let r1 := (r0.step (.eventFindById req.id) st1).log (.found found)
    match found with
    | none => (.next ⟨.text "Event is not found with this id", 404⟩, r1)
    | some event =>
      match destroyAll w event.images r1 with
      | (imageDeletionPromises, r2) =>
        match promiseAll w.rejectionPick imageDeletionPromises with
        | .error e => (.next ⟨.text (messageOrServerError e), 400⟩, r2)
        | .ok deletionResults =>
          let r3 := logDeletionResults deletionResults event.images 0 r2
          match w.eventDeleteOne req.id r3.st with
          | (.error e, st4) =>
            (.next ⟨.text (messageOrServerError e), 400⟩, r3.step (.eventDeleteOne req.id) st4)
          | (.ok deleteResult, st4) =>
            let r4 := r3.step (.eventDeleteOne req.id) st4
            if deleteResult.deletedCount = 0 then
              (.next ⟨.text "Failed to delete the event", 400⟩, r4)
            else
              (.json 200 (.message true "Event Deleted successfully!"), r4.log .eventRemoved)

/-! ## The admin listing -/

/-- Handler of `GET /admin-all-events`, behind the `isAuthenticated` and
`isAdmin("Admin")` gates. -/
def adminAllEvents {σ : Type} (w : Services σ) (st : σ) : Outcome × Run σ :=
  let r0 : Run σ := ⟨st, [], []⟩
  match w.eventFindSortCreatedAtDesc st with
  | (.error e, st1) =>
    (.next ⟨match e.message with
            | some m => .text m
            | none => .undefined, 500⟩, r0.step .eventFindSortCreatedAtDesc st1)
  | (.ok events, st1) =>
    (.json 201 (.events true events), r0.step .eventFindSortCreatedAtDesc st1)

/-! ## An in-memory instance of the services -/

/-- Modelled from the spec: the ordering of the Record Store's
`find(filter, sort?)` for the admin listing (`model/event.js` and the database
behind it are not among the sources).  Events come back by `createdAt`
descending, and events with the same `createdAt` keep the order the store held
them in: each event is put in front of the first one that is not newer. -/
def insertByCreatedAtDesc (e : Event) : List Event → List Event
  | [] => [e]
  | x :: xs =>
    if x.createdAt ≤ e.createdAt then e :: x :: xs else x :: insertByCreatedAtDesc e xs

/-- Modelled from the spec: the Record Store's `find` sorted by `createdAt`
descending, as an insertion sort over the store's own order. -/
def sortByCreatedAtDesc : List Event → List Event
  | [] => []
  | e :: es => insertByCreatedAtDesc e (sortByCreatedAtDesc es)

/-- State of the in-memory services: the two collections, the public ids of
the blobs the asset store holds, whether the asset store can be reached, and a
counter for ids and timestamps. -/
structure MemStore where
  shops : List Shop
  events : List Event
  blobs : List String
  online : Bool
  counter : Nat
deriving DecidableEq, Repr

/-- The value raised by an asset-store call that does not get through. -/
def requestTimeout : Thrown := ⟨some "Request Timeout"⟩

/-- The value raised by an upload of an empty image. -/
def emptyFile : Thrown := ⟨some "Empty file"⟩

/-- Modelled from the spec: the Record Store and the Asset Store Client of §2
(`model/shop.js`, `model/event.js` and the services behind them are not among
the sources), as plain collections.  `create` stores the record under a fresh
id, `findById` looks an id up, `deleteOne` removes the first match and counts
it; `upload` and `destroy` are rejected when the asset store cannot be reached,
`upload` is rejected for an empty image and `destroy` answers 'not found' for
a blob it does not hold. -/
def memServices : Services MemStore where
  shopFindById id s := (.ok (s.shops.find? (fun shop => shop._id = id)), s)
  upload image folder s :=
    if s.online then
      if image = "" then (.error emptyFile, s)
      else
        (.ok ⟨folder ++ "/" ++ image, "https://res.cloudinary.com/" ++ folder ++ "/" ++ image⟩,
          { s with blobs := s.blobs ++ [folder ++ "/" ++ image] })
    else (.error requestTimeout, s)
  eventCreate data s :=
    let event : Event :=
      ⟨toString s.counter, data.shopId, data.images, data.shop, s.counter, data.fields⟩
    (.ok event, { s with events := s.events ++ [event], counter := s.counter + 1 })
  eventFindById id s := (.ok (s.events.find? (fun event => event._id = id)), s)
  destroy public_id s :=
    if s.online then
      if public_id ∈ s.blobs then (.ok ⟨"ok"⟩, { s with blobs := s.blobs.erase public_id })
      else (.ok ⟨"not found"⟩, s)
    else (.error requestTimeout, s)
  eventDeleteOne id s :=
    match s.events.find? (fun event => event._id = id) with
    | none => (.ok ⟨0⟩, s)
    | some event => (.ok ⟨1⟩, { s with events := s.events.erase event })
  eventFindSortCreatedAtDesc s := (.ok (sortByCreatedAtDesc s.events), s)
  rejectionPick := 0

/-! ## Runs of the services, told apart from the handlers -/

/-- The images `images` are uploaded one after the other, starting in state
`st`; every upload is fulfilled, the i-th one with `results[i]`, and the last
one leaves state `st'`. -/
inductive UploadsSucceed {σ : Type} (w : Services σ) :
    List String → σ → List UploadResult → σ → Prop where
  | nil (st : σ) : UploadsSucceed w [] st [] st
  | cons {image : String} {rest : List String} {st st1 st2 : σ} {result : UploadResult}
      {results : List UploadResult} :
      w.upload image "products" st = (.ok result, st1) →
      UploadsSucceed w rest st1 results st2 →
      UploadsSucceed w (image :: rest) st (result :: results) st2

/-- The blobs of `images` are destroyed one call after the other, starting in
state `st`; the i-th call settles as `promises[i]`, fulfilled or rejected, and
the last one leaves state `st'`. -/
inductive Destroys {σ : Type} (w : Services σ) :
    List AssetRef → σ → List (Except Thrown DestroyResult) → σ → Prop where
  | nil (st : σ) : Destroys w [] st [] st
  | cons {image : AssetRef} {rest : List AssetRef} {st st1 st2 : σ}
      {p : Except Thrown DestroyResult} {ps : List (Except Thrown DestroyResult)} :
      w.destroy image.public_id st = (p, st1) →
      Destroys w rest st1 ps st2 →
      Destroys w (image :: rest) st (p :: ps) st2

/-- The `{public_id, url}` entry made from an upload result. -/
def UploadResult.toAssetRef (result : UploadResult) : AssetRef :=
  ⟨result.public_id, result.secure_url⟩

/-- The upload call the create handler issues for an image. -/
def uploadCall (image : String) : Call := .upload image "products"

/-- The destroy call the delete handler issues for an image. -/
def destroyCall (image : AssetRef) : Call := .destroy image.public_id

/-- Whether a call is an upload to the asset store. -/
def Call.isUpload : Call → Bool
  | .upload _ _ => true
  | _ => false

/-- Whether a call is a deletion from the asset store. -/
def Call.isDestroy : Call → Bool
  | .destroy _ => true
  | _ => false

/-- Whether a call goes to the asset store. -/
def Call.isAssetCall (c : Call) : Bool := c.isUpload || c.isDestroy

/-- Whether a handler ended with `next(err)`. -/
def Outcome.failed : Outcome → Bool
  | .next _ => true
  | .json _ _ => false

/-- The console lines `logDeletionResults` writes. -/
def deletionLines : List DestroyResult → List AssetRef → Nat → List LogLine
  | result :: results, image :: images, index =>
    LogLine.deletionResult index result ::
      ((if result.result ≠ "ok" then [LogLine.deletionFailed image.public_id] else []) ++
        deletionLines results images (index + 1))
  | _, _, _ => []

/-- How the delete handler ends on what `Event.deleteOne` settles as. -/
def outcomeOfDeleteOne : Except Thrown DeleteResult → Outcome
  | .error e => .next ⟨.text (messageOrServerError e), 400⟩
  | .ok d =>
    if d.deletedCount = 0 then .next ⟨.text "Failed to delete the event", 400⟩
    else .json 200 (.message true "Event Deleted successfully!")

/-- The console lines the delete handler writes after `Event.deleteOne`. -/
def linesOfDeleteOne : Except Thrown DeleteResult → List LogLine
  | .error _ => []
  | .ok d => if d.deletedCount = 0 then [] else [LogLine.eventRemoved]

/-! ## Sample states of the in-memory services -/

/-- A shop. -/
def shopS1 : Shop := ⟨"S1", "first"⟩

/-- One shop, no events, no blobs, asset store reachable. -/
def memEmpty : MemStore := ⟨[shopS1], [], [], true, 0⟩

/-- The two asset references of the sample event. -/
def refA : AssetRef := ⟨"products/a", "https://res.cloudinary.com/products/a"⟩

/-- The second asset reference of the sample event. -/
def refB : AssetRef := ⟨"products/b", "https://res.cloudinary.com/products/b"⟩

/-- An event of shop `S1` with two images. -/
def eventE0 : Event := ⟨"0", "S1", [refA, refB], shopS1, 0, []⟩

/-- The store after `eventE0` was created, with both blobs in place. -/
def memWithEvent : MemStore := ⟨[shopS1], [eventE0], ["products/a", "products/b"], true, 1⟩

/-- As `memWithEvent`, but the asset store has lost the second blob. -/
def memBlobLost : MemStore := ⟨[shopS1], [eventE0], ["products/a"], true, 1⟩

/-- As `memWithEvent`, with the asset store out of reach. -/
def memWithEventOffline : MemStore :=
  ⟨[shopS1], [eventE0], ["products/a", "products/b"], false, 1⟩

/-! ## Lemmas on the loops -/

theorem uploadLoop_of_succeed {σ : Type} (w : Services σ) {images : List String} {st st' : σ}
    {results : List UploadResult} (h : UploadsSucceed w images st results st')
    (imagesLinks : List AssetRef) (calls : List Call) (logs : List LogLine) :
    uploadLoop w images imagesLinks ⟨st, calls, logs⟩ =
      (.ok (imagesLinks ++ results.map UploadResult.toAssetRef),
        ⟨st', calls ++ images.map uploadCall, logs⟩) := by
  induction h generalizing imagesLinks calls with
  | nil st => simp [uploadLoop]
  | cons hup _ ih =>
    simp only [uploadLoop, hup, Run.step]
    rw [ih]
    simp [UploadResult.toAssetRef, uploadCall]

theorem uploadLoop_of_fail {σ : Type} (w : Services σ) {pre : List String} {st st2 st3 : σ}
    {results : List UploadResult} (h : UploadsSucceed w pre st results st2)
    (image : String) (post : List String) (e : Thrown)
    (hfail : w.upload image "products" st2 = (.error e, st3))
    (imagesLinks : List AssetRef) (calls : List Call) (logs : List LogLine) :
    uploadLoop w (pre ++ image :: post) imagesLinks ⟨st, calls, logs⟩ =
      (.error e, ⟨st3, calls ++ (pre ++ [image]).map uploadCall, logs⟩) := by
  induction h generalizing imagesLinks calls with
  | nil st => simp [uploadLoop, hfail, Run.step, uploadCall]
  | @cons image0 rest0 s s1 s2 result0 results0 hup _ ih =>
    have hstep := ih hfail (imagesLinks ++ [⟨result0.public_id, result0.secure_url⟩])
      (calls ++ [Call.upload image0 "products"])
    simp only [List.cons_append, uploadLoop, hup, Run.step]
    exact hstep.trans (by simp [uploadCall])

theorem uploadLoop_ok_length {σ : Type} (w : Services σ) (images : List String) :
    ∀ (imagesLinks : List AssetRef) (r r' : Run σ) (out : List AssetRef),
      uploadLoop w images imagesLinks r = (.ok out, r') →
      out.length = imagesLinks.length + images.length ∧ r'.logs = r.logs := by
  induction images with
  | nil =>
    intro imagesLinks r r' out h
    simp only [uploadLoop, Prod.mk.injEq, Except.ok.injEq] at h
    obtain ⟨h1, h2⟩ := h
    subst h1; subst h2; simp
  | cons image rest ih =>
    intro imagesLinks r r' out h
    simp only [uploadLoop] at h
    rcases hup : w.upload image "products" r.st with ⟨res, st⟩
    rw [hup] at h
    cases res with
    | error e => simp at h
    | ok result =>
      simp only at h
      obtain ⟨h1, h2⟩ := ih _ _ _ _ h
      simp only [List.length_append, List.length_cons, List.length_nil] at h1
      refine ⟨by simp only [List.length_cons]; omega, ?_⟩
      rw [h2]; rfl

theorem uploadsSucceed_length_eq {σ : Type} {w : Services σ} {images : List String} {st st' : σ}
    {results : List UploadResult} (h : UploadsSucceed w images st results st') :
    results.length = images.length := by
  induction h with
  | nil st => rfl
  | cons _ _ ih => simp [ih]

theorem logDeletionResults_eq {σ : Type} (results : List DestroyResult) :
    ∀ (images : List AssetRef) (index : Nat) (r : Run σ),
      logDeletionResults results images index r =
        ⟨r.st, r.calls, r.logs ++ deletionLines results images index⟩ := by
  induction results with
  | nil => intro images index r; simp [logDeletionResults, deletionLines]
  | cons result results ih =>
    intro images index r
    cases images with
    | nil => simp [logDeletionResults, deletionLines]
    | cons image images =>
      simp only [logDeletionResults, deletionLines, ih]
      by_cases hok : result.result = "ok" <;> simp [hok, Run.log]

theorem deletionFailed_mem_deletionLines (pid : String) (results : List DestroyResult) :
    ∀ (images : List AssetRef) (index : Nat),
      LogLine.deletionFailed pid ∈ deletionLines results images index ↔
        ∃ p ∈ results.zip images, p.1.result ≠ "ok" ∧ p.2.public_id = pid := by
  induction results with
  | nil => intro images index; simp [deletionLines]
  | cons result results ih =>
    intro images index
    cases images with
    | nil => simp [deletionLines]
    | cons image images =>
      simp only [deletionLines, List.mem_cons, List.mem_append, ih, List.zip_cons_cons,
        reduceCtorEq, false_or, exists_eq_or_imp]
      by_cases hok : result.result = "ok" <;> simp [hok, eq_comm]

theorem destroyAll_of_destroys {σ : Type} (w : Services σ) {images : List AssetRef} {st st' : σ}
    {ps : List (Except Thrown DestroyResult)} (h : Destroys w images st ps st')
    (calls : List Call) (logs : List LogLine) :
    destroyAll w images ⟨st, calls, logs⟩ =
      (ps, ⟨st', calls ++ images.map destroyCall, logs⟩) := by
  induction h generalizing calls with
  | nil st => simp [destroyAll]
  | @cons image0 rest0 s s1 s2 p0 ps0 hd _ ih =>
    have hstep := ih (calls ++ [Call.destroy image0.public_id])
    simp only [destroyAll, hd, Run.step, hstep]
    simp [destroyCall]

theorem rejections_map_ok {α : Type} (xs : List α) :
    rejections (xs.map (Except.ok : α → Except Thrown α)) = [] := by
  induction xs with
  | nil => rfl
  | cons x xs ih => simpa [rejections] using ih

theorem fulfilments_map_ok {α : Type} (xs : List α) :
    fulfilments (xs.map (Except.ok : α → Except Thrown α)) = xs := by
  induction xs with
  | nil => rfl
  | cons x xs ih => simpa [fulfilments] using ih

theorem eq_map_ok_of_rejections_nil {α : Type} :
    ∀ ps : List (Except Thrown α), rejections ps = [] →
      ps = (fulfilments ps).map Except.ok
  | [], _ => rfl
  | .error e :: ps, h => by simp [rejections] at h
  | .ok a :: ps, h => by
    simp only [rejections] at h
    simp only [fulfilments, List.map_cons]
    rw [← eq_map_ok_of_rejections_nil ps h]

theorem promiseAll_map_ok {α : Type} (pick : Nat) (xs : List α) :
    promiseAll pick (xs.map (Except.ok : α → Except Thrown α)) = .ok xs := by
  simp [promiseAll, rejections_map_ok, fulfilments_map_ok]

theorem promiseAll_of_rejections {α : Type} (pick : Nat) (ps : List (Except Thrown α))
    (h : rejections ps ≠ []) :
    ∃ e ∈ rejections ps, promiseAll pick ps = .error e := by
  unfold promiseAll
  cases hr : rejections ps with
  | nil => exact absurd hr h
  | cons e es =>
    have hlt : pick % (es.length + 1) < (e :: es).length := by
      simpa using Nat.mod_lt pick (Nat.succ_pos es.length)
    refine ⟨(e :: es).getD (pick % (es.length + 1)) e, ?_, rfl⟩
    rw [List.getD_eq_getElem _ _ hlt]
    exact List.getElem_mem _

/-- What the delete handler does once the event is found and every `destroy`
call is fulfilled, in terms of what `Event.deleteOne` then answers. -/
theorem deleteShopEvent_of_fulfilled {σ : Type} (w : Services σ) (req : DeleteRequest)
    (st st1 st2 st3 : σ) (event : Event) (results : List DestroyResult)
    (out : Except Thrown DeleteResult)
    (hfind : w.eventFindById req.id st = (.ok (some event), st1))
    (hdestroy : Destroys w event.images st1 (results.map Except.ok) st2)
    (hdel : w.eventDeleteOne req.id st2 = (out, st3)) :
    deleteShopEvent w req st =
      (outcomeOfDeleteOne out,
       ⟨st3,
        Call.eventFindById req.id :: event.images.map destroyCall ++
          [Call.eventDeleteOne req.id],
        LogLine.found (some event) :: deletionLines results event.images 0 ++
          linesOfDeleteOne out⟩) := by
  simp only [deleteShopEvent, hfind, Run.step, Run.log, List.nil_append,
    destroyAll_of_destroys w hdestroy, promiseAll_map_ok, logDeletionResults_eq]
  rw [hdel]
  cases out with
  | error e => simp [outcomeOfDeleteOne, linesOfDeleteOne]
  | ok d =>
    by_cases h0 : d.deletedCount = 0 <;> simp [h0, Run.log, outcomeOfDeleteOne, linesOfDeleteOne]

/-- What the delete handler does once the event is found and some `destroy`
call is rejected. -/
theorem deleteShopEvent_of_rejected {σ : Type} (w : Services σ) (req : DeleteRequest)
    (st st1 st2 : σ) (event : Event) (promises : List (Except Thrown DestroyResult))
    (hfind : w.eventFindById req.id st = (.ok (some event), st1))
    (hdestroy : Destroys w event.images st1 promises st2)
    (hrej : rejections promises ≠ []) :
    ∃ e ∈ rejections promises,
      deleteShopEvent w req st =
        (.next ⟨.text (messageOrServerError e), 400⟩,
          ⟨st2, Call.eventFindById req.id :: event.images.map destroyCall,
            [LogLine.found (some event)]⟩) := by
  obtain ⟨e, he, hall⟩ := promiseAll_of_rejections w.rejectionPick promises hrej
  refine ⟨e, he, ?_⟩
  simp only [deleteShopEvent, hfind, Run.step, Run.log, List.nil_append,
    destroyAll_of_destroys w hdestroy, hall]
  simp

theorem filter_isDestroy_map_destroyCall (images : List AssetRef) :
    (images.map destroyCall).filter Call.isDestroy = images.map destroyCall := by
  induction images with
  | nil => rfl
  | cons image images ih => simp [destroyCall, Call.isDestroy, List.filter_cons] at ih ⊢

/-! ## The create handler: theorems -/

/-- C1: when `shopId` resolves to a shop, `images` is a list and every upload
is fulfilled, the handler issues the shop lookup, then one upload per image in
input order, then `Event.create` with a record whose `images` has one entry
per input image, the i-th made of the `public_id` and `secure_url` of the i-th
upload result; when the store returns an event, the answer is 201 with that
event.  (The list may have any length; N >= 1 is not needed.) -/
theorem createEvent_uploads_in_order {σ : Type} (w : Services σ) (body : Body)
    (st st1 st2 st3 : σ) (shop : Shop) (images : List String) (results : List UploadResult)
    (event : Event)
    (hshop : w.shopFindById body.shopId st = (.ok (some shop), st1))
    (himages : body.images = .arr images)
    (hup : UploadsSucceed w images st1 results st2)
    (hcreate : w.eventCreate
      ⟨body.shopId, results.map UploadResult.toAssetRef, shop, body.fields⟩ st2 =
        (.ok event, st3)) :
    createEvent w body st =
      (.json 201 (.event true event),
        ⟨st3,
         Call.shopFindById body.shopId :: images.map uploadCall ++
           [Call.eventCreate
             ⟨body.shopId, results.map UploadResult.toAssetRef, shop, body.fields⟩],
         [LogLine.productData
            ⟨body.shopId, results.map UploadResult.toAssetRef, shop, body.fields⟩,
          LogLine.event event, LogLine.eventCreated]⟩) ∧
    (results.map UploadResult.toAssetRef).length = images.length ∧
    ∀ i, i < images.length →
      ∃ result, results[i]? = some result ∧
        (results.map UploadResult.toAssetRef)[i]? =
          some ⟨result.public_id, result.secure_url⟩ := by
  refine ⟨?_, by simp [uploadsSucceed_length_eq hup], ?_⟩
  · simp only [createEvent, hshop, himages, imagesOf, Run.step,
      uploadLoop_of_succeed w hup, Run.log, List.nil_append]
    rw [hcreate]
    simp
  · intro i hi
    have hlen := uploadsSucceed_length_eq hup
    have hi' : i < results.length := by omega
    refine ⟨results[i], by simp [hi'], ?_⟩
    simp [hi', UploadResult.toAssetRef]

/-- Witness of C1: two images uploaded for shop `S1` on the in-memory services. -/
theorem createEvent_uploads_in_order_witness :
    createEvent memServices ⟨"S1", .arr ["a", "b"], []⟩ memEmpty =
      (.json 201 (.event true eventE0),
        ⟨memWithEvent,
         [Call.shopFindById "S1", uploadCall "a", uploadCall "b",
          Call.eventCreate ⟨"S1", [refA, refB], shopS1, []⟩],
         [LogLine.productData ⟨"S1", [refA, refB], shopS1, []⟩,
          LogLine.event eventE0, LogLine.eventCreated]⟩) :=
  (createEvent_uploads_in_order memServices ⟨"S1", .arr ["a", "b"], []⟩
    memEmpty memEmpty ⟨[shopS1], [], ["products/a", "products/b"], true, 0⟩ memWithEvent
    shopS1 ["a", "b"]
    [⟨"products/a", "https://res.cloudinary.com/products/a"⟩,
     ⟨"products/b", "https://res.cloudinary.com/products/b"⟩]
    eventE0 rfl rfl
    (UploadsSucceed.cons
      (show memServices.upload "a" "products" memEmpty =
        (.ok ⟨"products/a", "https://res.cloudinary.com/products/a"⟩,
          ⟨[shopS1], [], ["products/a"], true, 0⟩) from rfl)
      (UploadsSucceed.cons
        (show memServices.upload "b" "products" ⟨[shopS1], [], ["products/a"], true, 0⟩ =
          (.ok ⟨"products/b", "https://res.cloudinary.com/products/b"⟩,
            ⟨[shopS1], [], ["products/a", "products/b"], true, 0⟩) from rfl)
        (UploadsSucceed.nil _)))
    rfl).1

/-- C2: when `shopId` resolves to a shop and the k-th upload is rejected, the
uploads issued before it are exactly those of the first k-1 images, in order,
and none is issued after it; `Event.create` is never called, and the handler
ends with `next` of the raised value and status 400.  Here `pre` holds the
first k-1 images, `image` is the k-th and `post` the ones after it. -/
theorem createEvent_upload_fails {σ : Type} (w : Services σ) (body : Body)
    (st st1 st2 st3 : σ) (shop : Shop) (pre post : List String) (image : String)
    (results : List UploadResult) (e : Thrown)
    (hshop : w.shopFindById body.shopId st = (.ok (some shop), st1))
    (himages : body.images = .arr (pre ++ image :: post))
    (hup : UploadsSucceed w pre st1 results st2)
    (hfail : w.upload image "products" st2 = (.error e, st3)) :
    createEvent w body st =
      (.next ⟨.thrown e, 400⟩,
        ⟨st3, Call.shopFindById body.shopId :: (pre ++ [image]).map uploadCall, []⟩) ∧
    (createEvent w body st).2.calls.filter Call.isUpload =
      pre.map uploadCall ++ [uploadCall image] ∧
    (∀ data, Call.eventCreate data ∉ (createEvent w body st).2.calls) ∧
    (createEvent w body st).1.failed = true := by
  have hrun : createEvent w body st =
      (.next ⟨.thrown e, 400⟩,
        ⟨st3, Call.shopFindById body.shopId :: (pre ++ [image]).map uploadCall, []⟩) := by
    simp only [createEvent, hshop, himages, imagesOf, Run.step,
      uploadLoop_of_fail w hup image post e hfail]
    simp
  refine ⟨hrun, ?_, ?_, ?_⟩
  · rw [hrun]
    simp [uploadCall, List.filter_cons, Call.isUpload, List.filter_map, Function.comp_def]
  · intro data
    rw [hrun]
    simp [uploadCall]
  · rw [hrun]; rfl

/-- Witness of C2: the second of three uploads is rejected; two upload calls
are issued, the third image is never uploaded and nothing is created. -/
theorem createEvent_upload_fails_witness :
    createEvent memServices ⟨"S1", .arr (["a"] ++ "" :: ["c"]), []⟩ memEmpty =
      (.next ⟨.thrown emptyFile, 400⟩,
        ⟨⟨[shopS1], [], ["products/a"], true, 0⟩,
         Call.shopFindById "S1" :: (["a"] ++ [""]).map uploadCall, []⟩) :=
  (createEvent_upload_fails memServices ⟨"S1", .arr (["a"] ++ "" :: ["c"]), []⟩
    memEmpty memEmpty ⟨[shopS1], [], ["products/a"], true, 0⟩
    ⟨[shopS1], [], ["products/a"], true, 0⟩ shopS1 ["a"] ["c"] ""
    [⟨"products/a", "https://res.cloudinary.com/products/a"⟩] emptyFile rfl rfl
    (UploadsSucceed.cons
      (show memServices.upload "a" "products" memEmpty =
        (.ok ⟨"products/a", "https://res.cloudinary.com/products/a"⟩,
          ⟨[shopS1], [], ["products/a"], true, 0⟩) from rfl)
      (UploadsSucceed.nil _))
    rfl).1

/-- C3: when `shopId` resolves to no shop, whatever the images and the other
fields of the body, the only call issued is the shop lookup (no asset-store
call, no `Event.create`), and the handler ends with
`next(new ErrorHandler("Shop Id is invalid!", 400))`. -/
theorem createEvent_unknown_shop {σ : Type} (w : Services σ) (body : Body) (st st1 : σ)
    (hshop : w.shopFindById body.shopId st = (.ok none, st1)) :
    createEvent w body st =
      (.next ⟨.text "Shop Id is invalid!", 400⟩, ⟨st1, [Call.shopFindById body.shopId], []⟩) ∧
    (createEvent w body st).2.calls.filter Call.isAssetCall = [] ∧
    ∀ data, Call.eventCreate data ∉ (createEvent w body st).2.calls := by
  have hrun : createEvent w body st =
      (.next ⟨.text "Shop Id is invalid!", 400⟩,
        ⟨st1, [Call.shopFindById body.shopId], []⟩) := by
    simp [createEvent, hshop, Run.step]
  refine ⟨hrun, ?_, ?_⟩
  · rw [hrun]; rfl
  · intro data; rw [hrun]; simp

/-- Witness of C3: shop `S2` is unknown to the in-memory services. -/
theorem createEvent_unknown_shop_witness :
    createEvent memServices ⟨"S2", .arr ["a", "b"], [("name", "sale")]⟩ memEmpty =
      (.next ⟨.text "Shop Id is invalid!", 400⟩, ⟨memEmpty, [Call.shopFindById "S2"], []⟩) :=
  (createEvent_unknown_shop memServices ⟨"S2", .arr ["a", "b"], [("name", "sale")]⟩
    memEmpty memEmpty rfl).1

/-- C7 as stated fails: a request with an empty list of images for an existing
shop is answered 201, and the event created has no image. -/
theorem createEvent_empty_images_created :
    createEvent memServices ⟨"S1", .arr [], []⟩ memEmpty =
      (.json 201 (.event true ⟨"0", "S1", [], shopS1, 0, []⟩),
        ⟨⟨[shopS1], [⟨"0", "S1", [], shopS1, 0, []⟩], [], true, 1⟩,
         [Call.shopFindById "S1", Call.eventCreate ⟨"S1", [], shopS1, []⟩],
         [LogLine.productData ⟨"S1", [], shopS1, []⟩,
          LogLine.event ⟨"0", "S1", [], shopS1, 0, []⟩, LogLine.eventCreated]⟩) ∧
    (⟨"0", "S1", [], shopS1, 0, []⟩ : Event).images = [] := by
  exact ⟨rfl, rfl⟩

/-- C7, amended: when the create handler answers 201, the body is the event
`Event.create` returned for the record the handler made, that record is the
last call, and its `images` has exactly one entry per image of the request (a
single string counting as one image); so it is non-empty whenever the request
carries at least one image. -/
theorem createEvent_created_images_length {σ : Type} (w : Services σ) (body : Body) (st : σ)
    (jb : JsonBody) (h : (createEvent w body st).1 = .json 201 jb) :
    ∃ images data event st2 st3,
      imagesOf body.images = some images ∧
      jb = .event true event ∧
      w.eventCreate data st2 = (.ok event, st3) ∧
      (createEvent w body st).2.calls.getLast? = some (Call.eventCreate data) ∧
      data.images.length = images.length ∧
      (images ≠ [] → data.images ≠ []) := by
  generalize hres : createEvent w body st = res at h ⊢
  simp only [createEvent] at hres
  rcases hshop : w.shopFindById body.shopId st with ⟨found, st1⟩
  rw [hshop] at hres
  rcases found with e | _ | shop
  · subst hres; simp at h
  · subst hres; simp at h
  · simp only at hres
    cases himg : imagesOf body.images with
    | none => rw [himg] at hres; subst hres; simp at h
    | some images =>
      rw [himg] at hres
      simp only at hres
      rcases hloop : uploadLoop w images [] (Run.step ⟨st, [], []⟩
        (Call.shopFindById body.shopId) st1) with ⟨out, r2⟩
      rw [hloop] at hres
      cases out with
      | error e => subst hres; simp at h
      | ok imagesLinks =>
        simp only at hres
        rcases hcreate : w.eventCreate ⟨body.shopId, imagesLinks, shop, body.fields⟩
          (r2.log (.productData ⟨body.shopId, imagesLinks, shop, body.fields⟩)).st
          with ⟨out4, st4⟩
        rw [hcreate] at hres
        cases out4 with
        | error e => subst hres; simp at h
        | ok event =>
          subst hres
          simp only [Outcome.json.injEq, true_and] at h
          have hlen := (uploadLoop_ok_length w images [] _ _ _ hloop).1
          simp only [List.length_nil, Nat.zero_add] at hlen
          refine ⟨images, ⟨body.shopId, imagesLinks, shop, body.fields⟩, event, _, st4,
            rfl, h.symm, hcreate, ?_, hlen, ?_⟩
          · simp [Run.step, Run.log]
          · intro hne hnil
            simp only at hnil
            rw [hnil] at hlen
            exact hne (List.length_eq_zero.mp hlen.symm)

/-- Witness of C7, amended: two images in, a record with two images created. -/
theorem createEvent_created_images_length_witness :
    ∃ images data event st2 st3,
      imagesOf (ImagesField.arr ["a", "b"]) = some images ∧
      JsonBody.event true eventE0 = .event true event ∧
      memServices.eventCreate data st2 = (.ok event, st3) ∧
      (createEvent memServices ⟨"S1", .arr ["a", "b"], []⟩ memEmpty).2.calls.getLast? =
        some (Call.eventCreate data) ∧
      data.images.length = images.length ∧
      (images ≠ [] → data.images ≠ []) :=
  createEvent_created_images_length memServices ⟨"S1", .arr ["a", "b"], []⟩ memEmpty
    (.event true eventE0) rfl

/-- C8: a body whose `images` is the string `x` and the same body with `images`
the one-element list `[x]` are handled alike: the two runs are equal (calls,
console output, final state, response).  When the shop is found, each run
issues exactly one upload, that of `x`; if it is rejected, both end with `next`
of the raised value and status 400 after the lookup and that upload; if it is
fulfilled, the calls are the lookup, the upload of `x` and `Event.create` with
the record whose `images` is the single `{public_id, url}` of the upload
result, and when the store returns an event the answer is 201 with it. -/
theorem createEvent_string_as_singleton {σ : Type} (w : Services σ) (shopId : String)
    (fields : List (String × String)) (x : String) (st : σ) :
    createEvent w ⟨shopId, .str x, fields⟩ st = createEvent w ⟨shopId, .arr [x], fields⟩ st ∧
    ∀ shop st1, w.shopFindById shopId st = (.ok (some shop), st1) →
      (createEvent w ⟨shopId, .str x, fields⟩ st).2.calls.filter Call.isUpload =
        [uploadCall x] ∧
      (createEvent w ⟨shopId, .arr [x], fields⟩ st).2.calls.filter Call.isUpload =
        [uploadCall x] ∧
      (∀ e st2, w.upload x "products" st1 = (.error e, st2) →
        createEvent w ⟨shopId, .str x, fields⟩ st =
          (.next ⟨.thrown e, 400⟩, ⟨st2, [Call.shopFindById shopId, uploadCall x], []⟩)) ∧
      (∀ result st2, w.upload x "products" st1 = (.ok result, st2) →
        (createEvent w ⟨shopId, .str x, fields⟩ st).2.calls =
          [Call.shopFindById shopId, uploadCall x,
           Call.eventCreate ⟨shopId, [⟨result.public_id, result.secure_url⟩], shop, fields⟩] ∧
        ∀ event st3,
          w.eventCreate ⟨shopId, [⟨result.public_id, result.secure_url⟩], shop, fields⟩ st2 =
            (.ok event, st3) →
          createEvent w ⟨shopId, .str x, fields⟩ st =
            (.json 201 (.event true event),
              ⟨st3,
               [Call.shopFindById shopId, uploadCall x,
                Call.eventCreate
                  ⟨shopId, [⟨result.public_id, result.secure_url⟩], shop, fields⟩],
               [LogLine.productData
                  ⟨shopId, [⟨result.public_id, result.secure_url⟩], shop, fields⟩,
                LogLine.event event, LogLine.eventCreated]⟩)) := by
  have heq : createEvent w ⟨shopId, .str x, fields⟩ st =
      createEvent w ⟨shopId, .arr [x], fields⟩ st := by
    simp [createEvent, imagesOf]
  refine ⟨heq, ?_⟩
  intro shop st1 hshop
  have hrejected : ∀ e st2, w.upload x "products" st1 = (.error e, st2) →
      createEvent w ⟨shopId, .str x, fields⟩ st =
        (.next ⟨.thrown e, 400⟩, ⟨st2, [Call.shopFindById shopId, uploadCall x], []⟩) := by
    intro e st2 hup
    simp [createEvent, hshop, imagesOf, uploadLoop, Run.step, hup, uploadCall]
  have hfulfilled : ∀ result st2, w.upload x "products" st1 = (.ok result, st2) →
      ∀ out st3,
        w.eventCreate ⟨shopId, [⟨result.public_id, result.secure_url⟩], shop, fields⟩ st2 =
          (out, st3) →
        createEvent w ⟨shopId, .str x, fields⟩ st =
          (match out with
            | .error e => .next ⟨.thrown e, 400⟩
            | .ok event => .json 201 (.event true event),
           ⟨st3,
            [Call.shopFindById shopId, uploadCall x,
             Call.eventCreate ⟨shopId, [⟨result.public_id, result.secure_url⟩], shop, fields⟩],
            LogLine.productData
                ⟨shopId, [⟨result.public_id, result.secure_url⟩], shop, fields⟩ ::
              (match out with
                | .error _ => []
                | .ok event => [LogLine.event event, LogLine.eventCreated])⟩) := by
    intro result st2 hup out st3 hcreate
    simp only [createEvent, hshop, imagesOf, uploadLoop, Run.step, Run.log, hup,
      List.nil_append]
    rw [hcreate]
    cases out <;> simp [uploadCall]
  have hupload : (createEvent w ⟨shopId, .str x, fields⟩ st).2.calls.filter Call.isUpload =
      [uploadCall x] := by
    rcases hup : w.upload x "products" st1 with ⟨res, st2⟩
    cases res with
    | error e =>
      rw [hrejected e st2 hup]
      simp [List.filter_cons, Call.isUpload, uploadCall]
    | ok result =>
      rw [hfulfilled result st2 hup _ _ rfl]
      simp [List.filter_cons, Call.isUpload, uploadCall]
  refine ⟨hupload, heq ▸ hupload, hrejected, ?_⟩
  intro result st2 hup
  refine ⟨?_, ?_⟩
  · rw [hfulfilled result st2 hup _ _ rfl]
  · intro event st3 hcreate
    rw [hfulfilled result st2 hup _ _ hcreate]

/-- Witness of C8: the string `a` for shop `S1` on the in-memory services: the
run equals that of the list with `a` alone, with one upload and a record with
one image. -/
theorem createEvent_string_as_singleton_witness :
    createEvent memServices ⟨"S1", .str "a", []⟩ memEmpty =
      createEvent memServices ⟨"S1", .arr ["a"], []⟩ memEmpty ∧
    (createEvent memServices ⟨"S1", .str "a", []⟩ memEmpty).2.calls.filter Call.isUpload =
      [uploadCall "a"] ∧
    (createEvent memServices ⟨"S1", .str "a", []⟩ memEmpty).2.calls =
      [Call.shopFindById "S1", uploadCall "a",
       Call.eventCreate ⟨"S1", [⟨"products/a", "https://res.cloudinary.com/products/a"⟩],
         shopS1, []⟩] :=
  ⟨(createEvent_string_as_singleton memServices "S1" [] "a" memEmpty).1,
   ((createEvent_string_as_singleton memServices "S1" [] "a" memEmpty).2
      shopS1 memEmpty rfl).1,
   ((((createEvent_string_as_singleton memServices "S1" [] "a" memEmpty).2
      shopS1 memEmpty rfl).2.2.2
      ⟨"products/a", "https://res.cloudinary.com/products/a"⟩
      ⟨[shopS1], [], ["products/a"], true, 0⟩ rfl).1)⟩

/-! ## The delete handler: theorems -/

/-- C4: when the event is found and has N images, and every `destroy` call
returns an outcome (whatever it is: any number of them may be other than 'ok'),
the handler issues the lookup, then exactly N `destroy` calls, one per entry of
`images` with that entry's `public_id`, then `Event.deleteOne` for the id of
the request.  A `public_id` is reported on the console as failed exactly when
the outcome of its call is other than 'ok', and the way the handler ends is
decided by what `Event.deleteOne` answers alone. -/
theorem deleteShopEvent_destroys_then_deletes {σ : Type} (w : Services σ)
    (req : DeleteRequest) (st st1 st2 : σ) (event : Event) (results : List DestroyResult)
    (hfind : w.eventFindById req.id st = (.ok (some event), st1))
    (hdestroy : Destroys w event.images st1 (results.map Except.ok) st2) :
    (deleteShopEvent w req st).2.calls =
      Call.eventFindById req.id :: event.images.map destroyCall ++
        [Call.eventDeleteOne req.id] ∧
    (deleteShopEvent w req st).2.calls.filter Call.isDestroy = event.images.map destroyCall ∧
    ((deleteShopEvent w req st).2.calls.filter Call.isDestroy).length = event.images.length ∧
    (∀ pid, LogLine.deletionFailed pid ∈ (deleteShopEvent w req st).2.logs ↔
      ∃ p ∈ results.zip event.images, p.1.result ≠ "ok" ∧ p.2.public_id = pid) ∧
    (deleteShopEvent w req st).1 = outcomeOfDeleteOne (w.eventDeleteOne req.id st2).1 := by
  have hrun := deleteShopEvent_of_fulfilled w req st st1 st2 (w.eventDeleteOne req.id st2).2
    event results (w.eventDeleteOne req.id st2).1 hfind hdestroy rfl
  have hfilter : (Call.eventFindById req.id :: event.images.map destroyCall ++
      [Call.eventDeleteOne req.id]).filter Call.isDestroy = event.images.map destroyCall := by
    simp [List.filter_cons, Call.isDestroy, filter_isDestroy_map_destroyCall]
  rw [hrun]
  refine ⟨rfl, hfilter, by rw [hfilter, List.length_map], ?_, rfl⟩
  intro pid
  simp only [List.mem_cons, List.mem_append, reduceCtorEq, false_or,
    deletionFailed_mem_deletionLines]
  constructor
  · rintro (h | h)
    · exact h
    · cases hout : (w.eventDeleteOne req.id st2).1 with
      | error e => rw [hout] at h; simp [linesOfDeleteOne] at h
      | ok d =>
        rw [hout] at h
        by_cases h0 : d.deletedCount = 0 <;> simp [linesOfDeleteOne, h0] at h
  · exact Or.inl

/-- Witness of C4: the asset store has lost the second of two blobs; both
`destroy` calls are issued, the second answers 'not found', and the record
delete follows. -/
theorem deleteShopEvent_destroys_then_deletes_witness :
    (deleteShopEvent memServices ⟨"0", ⟨"S1"⟩⟩ memBlobLost).2.calls =
      Call.eventFindById "0" :: [refA, refB].map destroyCall ++ [Call.eventDeleteOne "0"] :=
  (deleteShopEvent_destroys_then_deletes memServices ⟨"0", ⟨"S1"⟩⟩ memBlobLost memBlobLost
    ⟨[shopS1], [eventE0], [], true, 1⟩ eventE0 [⟨"ok"⟩, ⟨"not found"⟩] rfl
    (Destroys.cons
      (show memServices.destroy refA.public_id memBlobLost =
        (.ok ⟨"ok"⟩, ⟨[shopS1], [eventE0], [], true, 1⟩) from rfl)
      (Destroys.cons
        (show memServices.destroy refB.public_id ⟨[shopS1], [eventE0], [], true, 1⟩ =
          (.ok ⟨"not found"⟩, ⟨[shopS1], [eventE0], [], true, 1⟩) from rfl)
        (Destroys.nil _)))).1

/-- C5 as stated fails: the asset store cannot be reached, so the `destroy`
calls of a found event are rejected; the handler ends with `next` and status
400 although no record delete was issued, and the event stays in the store. -/
theorem deleteShopEvent_rejected_destroy_fails :
    deleteShopEvent memServices ⟨"0", ⟨"S1"⟩⟩ memWithEventOffline =
      (.next ⟨.text "Request Timeout", 400⟩,
        ⟨memWithEventOffline,
         [Call.eventFindById "0", Call.destroy "products/a", Call.destroy "products/b"],
         [LogLine.found (some eventE0)]⟩) ∧
    memServices.eventFindById "0" memWithEventOffline = (.ok (some eventE0), memWithEventOffline) ∧
    Call.eventDeleteOne "0" ∉ (deleteShopEvent memServices ⟨"0", ⟨"S1"⟩⟩ memWithEventOffline).2.calls :=
  ⟨rfl, rfl, by decide⟩

/-- C5, amended: when the event is found, all N `destroy` calls are issued.  If
none of them is rejected, whatever outcomes they report, `Event.deleteOne` is
issued after them and, when it returns a count, the handler fails exactly when
that count is zero (with "Failed to delete the event" and status 400) and
answers 200 otherwise.  If some `destroy` call is rejected, the handler ends
with `next`, status 400 and the message of a rejected call, and no record
delete is issued. -/
theorem deleteShopEvent_fails_iff {σ : Type} (w : Services σ) (req : DeleteRequest)
    (st st1 st2 : σ) (event : Event) (promises : List (Except Thrown DestroyResult))
    (hfind : w.eventFindById req.id st = (.ok (some event), st1))
    (hdestroy : Destroys w event.images st1 promises st2) :
    (deleteShopEvent w req st).2.calls.filter Call.isDestroy = event.images.map destroyCall ∧
    (rejections promises = [] →
      (deleteShopEvent w req st).2.calls =
        Call.eventFindById req.id :: event.images.map destroyCall ++
          [Call.eventDeleteOne req.id] ∧
      ∀ d st3, w.eventDeleteOne req.id st2 = (.ok d, st3) →
        ((deleteShopEvent w req st).1.failed = true ↔ d.deletedCount = 0) ∧
        (d.deletedCount = 0 →
          (deleteShopEvent w req st).1 = .next ⟨.text "Failed to delete the event", 400⟩) ∧
        (d.deletedCount ≠ 0 →
          (deleteShopEvent w req st).1 =
            .json 200 (.message true "Event Deleted successfully!"))) ∧
    (rejections promises ≠ [] →
      ∃ e ∈ rejections promises,
        deleteShopEvent w req st =
          (.next ⟨.text (messageOrServerError e), 400⟩,
            ⟨st2, Call.eventFindById req.id :: event.images.map destroyCall,
              [LogLine.found (some event)]⟩)) := by
  refine ⟨?_, ?_, deleteShopEvent_of_rejected w req st st1 st2 event promises hfind hdestroy⟩
  · by_cases hrej : rejections promises = []
    · rw [eq_map_ok_of_rejections_nil promises hrej] at hdestroy
      rw [deleteShopEvent_of_fulfilled w req st st1 st2 (w.eventDeleteOne req.id st2).2
        event _ (w.eventDeleteOne req.id st2).1 hfind hdestroy rfl]
      simp [List.filter_cons, Call.isDestroy, filter_isDestroy_map_destroyCall]
    · obtain ⟨e, _, hrun⟩ :=
        deleteShopEvent_of_rejected w req st st1 st2 event promises hfind hdestroy hrej
      rw [hrun]
      simp [List.filter_cons, Call.isDestroy, filter_isDestroy_map_destroyCall]
  · intro hrej
    rw [eq_map_ok_of_rejections_nil promises hrej] at hdestroy
    refine ⟨?_, ?_⟩
    · rw [deleteShopEvent_of_fulfilled w req st st1 st2 (w.eventDeleteOne req.id st2).2
        event _ (w.eventDeleteOne req.id st2).1 hfind hdestroy rfl]
    · intro d st3 hdel
      rw [deleteShopEvent_of_fulfilled w req st st1 st2 st3 event _ (.ok d) hfind hdestroy hdel]
      by_cases h0 : d.deletedCount = 0 <;> simp [outcomeOfDeleteOne, h0, Outcome.failed]

/-- Witness of C5, amended: both blobs are destroyed and the record delete
follows them. -/
theorem deleteShopEvent_fails_iff_witness :
    (deleteShopEvent memServices ⟨"0", ⟨"S1"⟩⟩ memWithEvent).2.calls.filter Call.isDestroy =
      [refA, refB].map destroyCall :=
  (deleteShopEvent_fails_iff memServices ⟨"0", ⟨"S1"⟩⟩ memWithEvent memWithEvent
    ⟨[shopS1], [eventE0], [], true, 1⟩ eventE0 [.ok ⟨"ok"⟩, .ok ⟨"ok"⟩] rfl
    (Destroys.cons
      (show memServices.destroy refA.public_id memWithEvent =
        (.ok ⟨"ok"⟩, ⟨[shopS1], [eventE0], ["products/b"], true, 1⟩) from rfl)
      (Destroys.cons
        (show memServices.destroy refB.public_id
            ⟨[shopS1], [eventE0], ["products/b"], true, 1⟩ =
          (.ok ⟨"ok"⟩, ⟨[shopS1], [eventE0], [], true, 1⟩) from rfl)
        (Destroys.nil _)))).1

/-- C6: when the id of the request matches no event, the only call issued is
the lookup (no asset-store call, no `Event.deleteOne`), and the handler ends
with `next(new ErrorHandler("Event is not found with this id", 404))`. -/
theorem deleteShopEvent_not_found {σ : Type} (w : Services σ) (req : DeleteRequest)
    (st st1 : σ) (hfind : w.eventFindById req.id st = (.ok none, st1)) :
    deleteShopEvent w req st =
      (.next ⟨.text "Event is not found with this id", 404⟩,
        ⟨st1, [Call.eventFindById req.id], [LogLine.found none]⟩) ∧
    (deleteShopEvent w req st).2.calls.filter Call.isAssetCall = [] ∧
    ∀ id, Call.eventDeleteOne id ∉ (deleteShopEvent w req st).2.calls := by
  have hrun : deleteShopEvent w req st =
      (.next ⟨.text "Event is not found with this id", 404⟩,
        ⟨st1, [Call.eventFindById req.id], [LogLine.found none]⟩) := by
    simp [deleteShopEvent, hfind, Run.step, Run.log]
  refine ⟨hrun, ?_, ?_⟩
  · rw [hrun]; rfl
  · intro id; rw [hrun]; simp

/-- Witness of C6: no event has id `7` in the in-memory services. -/
theorem deleteShopEvent_not_found_witness :
    deleteShopEvent memServices ⟨"7", ⟨"S1"⟩⟩ memWithEvent =
      (.next ⟨.text "Event is not found with this id", 404⟩,
        ⟨memWithEvent, [Call.eventFindById "7"], [LogLine.found none]⟩) :=
  (deleteShopEvent_not_found memServices ⟨"7", ⟨"S1"⟩⟩ memWithEvent memWithEvent rfl).1

/-- C10: the delete handler never reads the seller the gate attached.  Two
requests with the same event id, run against the same services in the same
state, issue the same calls, write the same console lines, leave the same
state and end the same way, whatever their sellers; in particular a seller
whose id differs from the `shopId` of the event deletes it as its owner does. -/
theorem deleteShopEvent_ignores_seller {σ : Type} (w : Services σ) (st : σ)
    (req₁ req₂ : DeleteRequest) (hid : req₁.id = req₂.id) :
    deleteShopEvent w req₁ st = deleteShopEvent w req₂ st := by
  simp only [deleteShopEvent, hid]

/-- Witness of C10: seller `S2` deletes the event of shop `S1` and gets the
answer `S1` gets, 200. -/
theorem deleteShopEvent_ignores_seller_witness :
    eventE0.shopId ≠ (⟨"S2"⟩ : Seller)._id ∧
    deleteShopEvent memServices ⟨"0", ⟨"S2"⟩⟩ memWithEvent =
      deleteShopEvent memServices ⟨"0", ⟨"S1"⟩⟩ memWithEvent ∧
    (deleteShopEvent memServices ⟨"0", ⟨"S2"⟩⟩ memWithEvent).1 =
      .json 200 (.message true "Event Deleted successfully!") ∧
    (deleteShopEvent memServices ⟨"0", ⟨"S2"⟩⟩ memWithEvent).2.st.events = [] :=
  ⟨by decide,
   deleteShopEvent_ignores_seller memServices memWithEvent ⟨"0", ⟨"S2"⟩⟩ ⟨"0", ⟨"S1"⟩⟩ rfl,
   rfl, rfl⟩

/-! ## The admin listing: theorems -/

theorem insertByCreatedAtDesc_perm (e : Event) (xs : List Event) :
    (insertByCreatedAtDesc e xs).Perm (e :: xs) := by
  induction xs with
  | nil => exact List.Perm.refl _
  | cons x xs ih =>
    unfold insertByCreatedAtDesc
    split
    · exact List.Perm.refl _
    · exact (List.Perm.cons x ih).trans (List.Perm.swap e x xs)

theorem sortByCreatedAtDesc_perm (es : List Event) : (sortByCreatedAtDesc es).Perm es := by
  induction es with
  | nil => exact List.Perm.refl _
  | cons e es ih =>
    exact (insertByCreatedAtDesc_perm e _).trans (List.Perm.cons e ih)

theorem insertByCreatedAtDesc_sorted (e : Event) (xs : List Event)
    (h : xs.Pairwise (fun a b => b.createdAt ≤ a.createdAt)) :
    (insertByCreatedAtDesc e xs).Pairwise (fun a b => b.createdAt ≤ a.createdAt) := by
  induction xs with
  | nil => simp [insertByCreatedAtDesc]
  | cons x xs ih =>
    unfold insertByCreatedAtDesc
    rw [List.pairwise_cons] at h
    split
    · rename_i hle
      refine List.pairwise_cons.mpr ⟨?_, List.pairwise_cons.mpr h⟩
      intro y hy
      rcases List.mem_cons.mp hy with rfl | hy
      · exact hle
      · exact Nat.le_trans (h.1 y hy) hle
    · rename_i hnle
      refine List.pairwise_cons.mpr ⟨?_, ih h.2⟩
      intro y hy
      rcases List.mem_cons.mp ((insertByCreatedAtDesc_perm e xs).mem_iff.mp hy) with rfl | hy
      · omega
      · exact h.1 y hy

theorem sortByCreatedAtDesc_sorted (es : List Event) :
    (sortByCreatedAtDesc es).Pairwise (fun a b => b.createdAt ≤ a.createdAt) := by
  induction es with
  | nil => exact List.Pairwise.nil
  | cons e es ih => exact insertByCreatedAtDesc_sorted e _ ih

theorem insertByCreatedAtDesc_filter (t : Nat) (e : Event) (xs : List Event) :
    (insertByCreatedAtDesc e xs).filter (fun x => decide (x.createdAt = t)) =
      (e :: xs).filter (fun x => decide (x.createdAt = t)) := by
  induction xs with
  | nil => rfl
  | cons x xs ih =>
    unfold insertByCreatedAtDesc
    split
    · rfl
    · rename_i hnle
      rw [List.filter_cons, ih]
      by_cases hx : x.createdAt = t
      · have he : e.createdAt ≠ t := by omega
        simp [List.filter_cons, hx, he]
      · simp [List.filter_cons, hx]

theorem sortByCreatedAtDesc_filter (t : Nat) (es : List Event) :
    (sortByCreatedAtDesc es).filter (fun x => decide (x.createdAt = t)) =
      es.filter (fun x => decide (x.createdAt = t)) := by
  induction es with
  | nil => rfl
  | cons e es ih =>
    show (insertByCreatedAtDesc e (sortByCreatedAtDesc es)).filter _ = _
    rw [insertByCreatedAtDesc_filter, List.filter_cons, List.filter_cons, ih]

/-- The admin handler sends the events exactly as the store's sorted `find`
returned them, with status 201. -/
theorem adminAllEvents_of_found {σ : Type} (w : Services σ) (st st1 : σ) (events : List Event)
    (hfind : w.eventFindSortCreatedAtDesc st = (.ok events, st1)) :
    adminAllEvents w st =
      (.json 201 (.events true events), ⟨st1, [Call.eventFindSortCreatedAtDesc], []⟩) := by
  simp [adminAllEvents, hfind, Run.step]

/-- C9: on the record store modelled from the spec, in every state, the admin
listing answers 201 with a list that is a permutation of the store's events
(none dropped, none duplicated), ordered by `createdAt` descending, in which
the events of any one `createdAt` appear in the order the store held them. -/
theorem adminAllEvents_sorted_desc (s : MemStore) :
    ∃ events,
      adminAllEvents memServices s =
        (.json 201 (.events true events), ⟨s, [Call.eventFindSortCreatedAtDesc], []⟩) ∧
      events.Perm s.events ∧
      events.Pairwise (fun a b => b.createdAt ≤ a.createdAt) ∧
      ∀ t, events.filter (fun x => decide (x.createdAt = t)) =
        s.events.filter (fun x => decide (x.createdAt = t)) :=
  ⟨sortByCreatedAtDesc s.events,
   adminAllEvents_of_found memServices s s _ rfl,
   sortByCreatedAtDesc_perm _, sortByCreatedAtDesc_sorted _,
   fun t => sortByCreatedAtDesc_filter t _⟩

end TradeX
